import Mathlib

/-!
Verification development for the comparison-study CSV tools
(`tools/prepare_comparison_csv.py`, `tools/generate_prev_images.py`,
`tools/analyze_comparison_results.py`).

The Python functions are shallowly embedded as pure Lean functions:
CSV rows become structures of string fields, the process-global random
source consumed by `random.choice([True, False])` becomes an explicit
stream `Nat → Bool` (the value drawn at each flip; `true` means the
call returned `True`, i.e. the model text is shown as A), and file
I/O / argument parsing (adapters around the core logic) are out of
scope.  Strings are modelled over their character lists; the ASCII
fragment of Python's `str.strip`, `\d` and `\w` is used, which covers
every value these tools compare against.
-/

/-- ASCII whitespace recognised by Python `str.strip()` (space, tab,
newline, vertical tab, form feed, carriage return). -/
def pyIsSpace (c : Char) : Bool :=
  c.toNat == 32 || c.toNat == 9 || c.toNat == 10 || c.toNat == 11 ||
  c.toNat == 12 || c.toNat == 13

/-- Python `s.strip()`: drop leading and trailing whitespace. -/
def pyStrip (s : String) : String :=
  String.mk (((s.data.dropWhile pyIsSpace).reverse.dropWhile pyIsSpace).reverse)

/-- Python `url.split("/")` on the character list: split at every slash,
keeping empty segments (`"".split("/") == [""]`). -/
def splitSlash : List Char → List (List Char)
  | [] => [[]]
  | c :: cs =>
    match splitSlash cs with
    | [] => if c = '/' then [[], []] else [[c]]
    | g :: gs => if c = '/' then [] :: g :: gs else (c :: g) :: gs

/-- Python regex `\d` restricted to ASCII: the characters `0`-`9`. -/
def isDigitChar (c : Char) : Bool :=
  48 ≤ c.toNat && c.toNat ≤ 57

/-- Python regex `\w` restricted to ASCII: letters, digits, underscore. -/
def isWordChar (c : Char) : Bool :=
  (65 ≤ c.toNat && c.toNat ≤ 90) || (97 ≤ c.toNat && c.toNat ≤ 122) ||
  isDigitChar c || c.toNat == 95

/-- The filename pattern `re.match(r"^(\d+)\.(\w+)$", filename)` of the
frame-URL deriver: one or more digits, a dot, one or more word
characters, then the end of the string (Python `$` also matches just
before a single trailing newline).  Returns the two capture groups. -/
def matchFrame (l : List Char) : Option (List Char × List Char) :=
  let ds := l.takeWhile isDigitChar
  match l.dropWhile isDigitChar with
  | '.' :: restExt =>
    let ws := restExt.takeWhile isWordChar
    let tail := restExt.dropWhile isWordChar
    if ds ≠ [] ∧ ws ≠ [] ∧ (tail = [] ∨ tail = ['\n']) then some (ds, ws)
    else none
  | _ => none

/-- Python `int(...)` on a digit string (what `int(match.group(1))` does). -/
def digitsToNat (ds : List Char) : Nat :=
  ds.foldl (fun n c => 10 * n + (c.toNat - 48)) 0

/-- Little-endian decimal digits of `n`, with explicit fuel (enough fuel
is supplied at the call site); empty for `n = 0`. -/
def digitsRev : Nat → Nat → List Char
  | 0, _ => []
  | fuel + 1, n =>
    if n = 0 then []
    else Char.ofNat (48 + n % 10) :: digitsRev fuel (n / 10)

/-- Decimal rendering of a non-negative integer, as Python renders it. -/
def natToDec (n : Nat) : List Char :=
  if n = 0 then ['0'] else (digitsRev n n).reverse

/-- Python `f"{n:0{w}d}"` for non-negative `n`, given the decimal digit
list: left-pad with zeros to width `w` (no truncation when longer). -/
def zfill (w : Nat) (l : List Char) : List Char :=
  List.replicate (w - l.length) '0' ++ l

/-- `get_previous_frame_url` from `tools/prepare_comparison_csv.py`
(line-for-line identical in `tools/generate_prev_images.py`): split the
URL on `/`, require the last segment to match `^(\d+)\.(\w+)$`, subtract
`offset` from the parsed frame number, return `""` if the result is
negative, otherwise re-render the number zero-padded to the original
digit count, reattach the extension and rejoin the path with `/`. -/
def get_previous_frame_url (url : String) (offset : Int) : String :=
  if url = "" then ""
  else
    match matchFrame ((splitSlash url.data).getLastD []) with
    | none => ""
    | some (ds, ext) =>
      if ((digitsToNat ds : Int) - offset) < 0 then ""
      else
        String.mk (List.intercalate ['/']
          ((splitSlash url.data).dropLast ++
            [zfill ds.length (natToDec ((digitsToNat ds : Int) - offset).toNat) ++ '.' :: ext]))


/-- One row of the raw captioning input CSV, as read by `prepare_file`
(`row.get(col) or ""` makes a missing column behave as `""`, so plain
string fields suffice). -/
structure RawRow where
  image_url : String
  original_description : String
  generated_description : String
deriving DecidableEq

/-- One row of the comparison-ready CSV written by `prepare_file` and
read back by the analyzer. -/
structure PreparedRow where
  prev_image : String
  current_image : String
  description_a : String
  description_b : String
  model_position : String
deriving DecidableEq

/-- The deduplication key of `prepare_file` lines 86-90: the stripped
(image_url, original_description, generated_description) triple. -/
def dedupKey (r : RawRow) : String × String × String :=
  (pyStrip r.image_url, pyStrip r.original_description, pyStrip r.generated_description)

/-- The per-image key of `prepare_file` lines 104-105: the stripped
(image_url, original_description) pair. -/
def imgOrigKey (r : RawRow) : String × String :=
  (pyStrip r.image_url, pyStrip r.original_description)

/-- `prepare_file` lines 83-94: drop every row whose stripped triple was
seen before, threading the `seen` set (modelled as a list used only for
membership). -/
def removeExactDuplicates : List RawRow → List (String × String × String) → List RawRow
  | [], _ => []
  | r :: rs, seen =>
    if dedupKey r ∈ seen then removeExactDuplicates rs seen
    else r :: removeExactDuplicates rs (dedupKey r :: seen)

/-- `prepare_file` lines 100-115: skip rows with empty stripped image or
original description, and keep only the first row for each
(image, original-description) pair, threading `seen_orig_for_img`
(modelled as the list of registered pairs). -/
def filterUniqueOrig : List RawRow → List (String × String) → List RawRow
  | [], _ => []
  | r :: rs, seen =>
    if pyStrip r.image_url = "" ∨ pyStrip r.original_description = "" then
      filterUniqueOrig rs seen
    else if imgOrigKey r ∈ seen then filterUniqueOrig rs seen
    else r :: filterUniqueOrig rs (imgOrigKey r :: seen)

/-- `prepare_file` lines 123-154: for each complete row compute the
previous-frame URL and place the generated description at A or B
according to the next coin flip (`rng i`; `true` = `random.choice`
returned `True` = model shown as A).  Incomplete rows are skipped and
consume no flip. -/
def prepareRows : List RawRow → (Nat → Bool) → Nat → List PreparedRow
  | [], _, _ => []
  | r :: rs, rng, i =>
    if pyStrip r.image_url = "" ∨ pyStrip r.original_description = "" ∨
        pyStrip r.generated_description = "" then
      prepareRows rs rng i
    else
      (if rng i then
        PreparedRow.mk (get_previous_frame_url (pyStrip r.image_url) 1)
          (pyStrip r.image_url) (pyStrip r.generated_description)
          (pyStrip r.original_description) "A"
      else
        PreparedRow.mk (get_previous_frame_url (pyStrip r.image_url) 1)
          (pyStrip r.image_url) (pyStrip r.original_description)
          (pyStrip r.generated_description) "B") :: prepareRows rs rng (i + 1)

/-- `prepare_file` from `tools/prepare_comparison_csv.py`: the three
filtering/transforming stages in order; `none` models the early
`return None` when a stage leaves no rows (file lookup and the
required-column check are I/O adapters, out of scope). -/
def prepare_file (rows : List RawRow) (rng : Nat → Bool) : Option (List PreparedRow) :=
  let uniqueRows := removeExactDuplicates rows []
  if uniqueRows = [] then none
  else
    let filteredRows := filterUniqueOrig uniqueRows []
    if filteredRows = [] then none
    else
      let preparedRows := prepareRows filteredRows rng 0
      if preparedRows = [] then none else some preparedRows


/-- A dataset binding of `analyze_comparison_results.py` (`DatasetConfig`
there): the dataset identifier and the model that authored its generated
descriptions.  The `path` field is an I/O adapter and is replaced by the
dataset's list of comparison rows where needed. -/
structure DatasetConfig where
  key : String
  model : String
deriving DecidableEq

/-- The fields of a response row that `analyze_results` consumes; the
remaining export columns are opaque passthrough metadata. -/
structure ResponseRow where
  current_image : String
  description_a : String
  description_b : String
  choice : String
deriving DecidableEq

/-- Per-model counters of `analyze_results` (`stats[model]`). -/
structure Tally where
  win : Nat
  lose : Nat
  tie : Nat
  rows : Nat
deriving DecidableEq

def initTally : Tally := Tally.mk 0 0 0 0

/-- The stripped key of a comparison row, `(cur, da, db)` at
`load_comparison_lookup` lines 82-87. -/
def compRowKey (row : PreparedRow) : String × String × String :=
  (pyStrip row.current_image, pyStrip row.description_a, pyStrip row.description_b)

/-- The `if not cur or not da or not db: continue` guard of
`load_comparison_lookup`. -/
def rowKeyValid (row : PreparedRow) : Bool :=
  decide (pyStrip row.current_image ≠ "" ∧ pyStrip row.description_a ≠ "" ∧
    pyStrip row.description_b ≠ "")

/-- A comparison row that contributes an entry for key `k`. -/
def keyPred (k : String × String × String) (row : PreparedRow) : Bool :=
  rowKeyValid row && decide (compRowKey row = k)

/-- `load_comparison_lookup`, observed at one key: the dict value built
by `lookup.setdefault(key, []).append((ds.key, mp))` is the list of
`(dataset key, stripped model_position)` entries in dataset-declaration
order, then row order - which is exactly this flat map. -/
def load_comparison_lookup (datasets : List (DatasetConfig × List PreparedRow))
    (k : String × String × String) : List (String × String) :=
  datasets.flatMap fun p =>
    (p.2.filter (keyPred k)).map fun row => (p.1.key, pyStrip row.model_position)

/-- The stripped key of a response row, `analyze_results` lines 122-125. -/
def respKey (r : ResponseRow) : String × String × String :=
  (pyStrip r.current_image, pyStrip r.description_a, pyStrip r.description_b)

/-- `next((d.model for d in DATASETS if d.key == ds_key), None)`. -/
def findModel (datasets : List (DatasetConfig × List PreparedRow)) (dsKey : String) :
    Option String :=
  (datasets.find? fun p => decide (p.1.key = dsKey)).map fun p => p.1.model

/-- Whether a dataset's comparison rows contain an entry for key `k`. -/
def containsKey (rows : List PreparedRow) (k : String × String × String) : Bool :=
  rows.any (keyPred k)

/-- The first dataset, in declaration order, whose rows contain key `k`. -/
def firstContaining (datasets : List (DatasetConfig × List PreparedRow))
    (k : String × String × String) : Option (DatasetConfig × List PreparedRow) :=
  datasets.find? fun p => containsKey p.2 k

/-- The outcome classification of `analyze_results` lines 145-155,
applied to a tally whose `rows` was already incremented. -/
def classify (t : Tally) (choice mp : String) : Tally :=
  if choice = "Neither" then { t with tie := t.tie + 1 }
  else if (choice = "A" ∨ choice = "B") ∧ (mp = "A" ∨ mp = "B") then
    if choice = mp then { t with win := t.win + 1 }
    else { t with lose := t.lose + 1 }
  else { t with tie := t.tie + 1 }

/-- `stats[model]["rows"] += 1` followed by the outcome classification,
leaving every other model's tally unchanged. -/
def bumpStats (stats : String → Tally) (m : String) (choice mp : String) :
    String → Tally :=
  fun x => if x = m then classify { stats m with rows := (stats m).rows + 1 } choice mp
  else stats x

/-- The mutable state of the `analyze_results` response loop: the
per-model tallies (total function defaulting to zero, matching the
zero-initialised `stats` dict) and the `unmatched` / `ambiguous`
accumulators. -/
structure AnalyzeState where
  stats : String → Tally
  unmatched : List (String × String × String)
  ambiguous : List ((String × String × String) × List (String × String))

/-- One iteration of the response loop of `analyze_results`
(lines 121-155): unmatched keys are recorded and skipped; a key with
several lookup entries is recorded as ambiguous and its first entry is
used; the resolved model's tally is bumped. -/
def processResponse (datasets : List (DatasetConfig × List PreparedRow))
    (st : AnalyzeState) (r : ResponseRow) : AnalyzeState :=
  match load_comparison_lookup datasets (respKey r) with
  | [] => { st with unmatched := st.unmatched ++ [respKey r] }
  | (dsKey, mp) :: rest =>
    let st1 := if rest = [] then st
      else { st with ambiguous := st.ambiguous ++ [(respKey r, (dsKey, mp) :: rest)] }
    match findModel datasets dsKey with
    | none => st1
    | some m => { st1 with stats := bumpStats st1.stats m (pyStrip r.choice) mp }

/-- The core of `analyze_results`: fold the response loop over all
responses, starting from zero tallies and empty accumulators. -/
def analyze_results (datasets : List (DatasetConfig × List PreparedRow))
    (responses : List ResponseRow) : AnalyzeState :=
  responses.foldl (processResponse datasets) (AnalyzeState.mk (fun _ => initTally) [] [])


lemma digit_toNat_le {c : Char} (h : isDigitChar c = true) : c.toNat - 48 ≤ 9 := by
  simp only [isDigitChar, Bool.and_eq_true, decide_eq_true_eq] at h
  omega

lemma foldl_digits_bound :
    ∀ (ds : List Char) (acc : Nat), (∀ c ∈ ds, isDigitChar c = true) →
      ds.foldl (fun n c => 10 * n + (c.toNat - 48)) acc < (acc + 1) * 10 ^ ds.length := by
  intro ds
  induction ds with
  | nil => intro acc _; simp
  | cons c t ih =>
    intro acc h
    have hc : c.toNat - 48 ≤ 9 := digit_toNat_le (h c (by simp))
    have ht : ∀ x ∈ t, isDigitChar x = true := fun x hx => h x (by simp [hx])
    calc List.foldl (fun n c => 10 * n + (c.toNat - 48)) (10 * acc + (c.toNat - 48)) t
        < (10 * acc + (c.toNat - 48) + 1) * 10 ^ t.length := ih _ ht
      _ ≤ ((acc + 1) * 10) * 10 ^ t.length :=
            Nat.mul_le_mul_right _ (by omega)
      _ = (acc + 1) * 10 ^ (t.length + 1) := by rw [pow_succ]; ring

lemma digitsToNat_lt {ds : List Char} (h : ∀ c ∈ ds, isDigitChar c = true) :
    digitsToNat ds < 10 ^ ds.length := by
  have := foldl_digits_bound ds 0 h
  simpa [digitsToNat] using this

lemma digitsRev_length :
    ∀ (fuel n w : Nat), n < 10 ^ w → (digitsRev fuel n).length ≤ w := by
  intro fuel
  induction fuel with
  | zero => intro n w _; simp [digitsRev]
  | succ f ih =>
    intro n w h
    by_cases hn : n = 0
    · simp [digitsRev, hn]
    · cases w with
      | zero =>
        simp only [pow_zero] at h
        omega
      | succ w1 =>
        have hdiv : n / 10 < 10 ^ w1 := by
          have h2 : n < 10 ^ w1 * 10 := by rw [← pow_succ]; exact h
          exact (Nat.div_lt_iff_lt_mul (by norm_num)).mpr h2
        simp only [digitsRev, if_neg hn, List.length_cons]
        have := ih (n / 10) w1 hdiv
        omega

lemma natToDec_length {n w : Nat} (h1 : 1 ≤ w) (h2 : n < 10 ^ w) :
    (natToDec n).length ≤ w := by
  by_cases hn : n = 0
  · simpa [natToDec, hn] using h1
  · simp only [natToDec, if_neg hn, List.length_reverse]
    exact digitsRev_length n n w h2

lemma zfill_length {w : Nat} {l : List Char} (h : l.length ≤ w) :
    (zfill w l).length = w := by
  simp only [zfill, List.length_append, List.length_replicate]
  omega

lemma matchFrame_inv {l ds ext : List Char} (h : matchFrame l = some (ds, ext)) :
    ds = l.takeWhile isDigitChar ∧ ds ≠ [] := by
  simp only [matchFrame] at h
  split at h
  · split at h
    · rename_i hcond
      obtain ⟨rfl, rfl⟩ : l.takeWhile isDigitChar = ds ∧ _ = ext := by
        simpa using h
      exact ⟨rfl, hcond.1⟩
    · exact absurd h (by simp)
  · exact absurd h (by simp)

/-- C9: `get_previous_frame_url` is a total pure function; on any URL
whose last path segment does not match the frame pattern (the empty
string included) it returns the empty string rather than failing. -/
theorem c9_malformed_url_yields_empty (url : String)
    (h : matchFrame ((splitSlash url.data).getLastD []) = none) :
    get_previous_frame_url url 1 = ""
    ∧ get_previous_frame_url url 1 = get_previous_frame_url url 1 := by
  refine ⟨?_, rfl⟩
  by_cases hu : url = ""
  · simp [get_previous_frame_url, hu]
  · simp only [get_previous_frame_url, if_neg hu, h]

theorem c9_malformed_url_yields_empty_witness :
    matchFrame ((splitSlash ("hello" : String).data).getLastD []) = none
    ∧ (get_previous_frame_url "hello" 1 = ""
       ∧ get_previous_frame_url "hello" 1 = get_previous_frame_url "hello" 1) :=
  ⟨by decide, c9_malformed_url_yields_empty "hello" (by decide)⟩

/-- C2: on a URL whose last segment is a valid frame filename of value
`f = digitsToNat ds`, width `w = ds.length` and extension `ext`, an
offset `k` with `1 ≤ k ≤ f` yields the same URL with the last segment
replaced by `f - k` rendered at the same width with the same extension
(all other segments preserved), and `k > f` yields the empty string. -/
theorem c2_prev_frame_url (url : String) (k : Nat) (ds ext : List Char)
    (hmatch : matchFrame ((splitSlash url.data).getLastD []) = some (ds, ext)) :
    (1 ≤ k → k ≤ digitsToNat ds →
      get_previous_frame_url url (k : Int)
        = String.mk (List.intercalate ['/'] ((splitSlash url.data).dropLast ++
            [zfill ds.length (natToDec (digitsToNat ds - k)) ++ '.' :: ext]))
      ∧ (zfill ds.length (natToDec (digitsToNat ds - k))).length = ds.length)
    ∧ (digitsToNat ds < k → get_previous_frame_url url (k : Int) = "") := by
  have hurl : url ≠ "" := by
    intro he
    rw [he] at hmatch
    simp [show ("" : String).data = [] from rfl, splitSlash, matchFrame] at hmatch
  constructor
  · intro _ hk2
    have hnonneg : ¬ ((digitsToNat ds : Int) - (k : Int) < 0) := by omega
    have htoNat : ((digitsToNat ds : Int) - (k : Int)).toNat = digitsToNat ds - k := by
      omega
    constructor
    · simp only [get_previous_frame_url, if_neg hurl, hmatch]
      rw [if_neg hnonneg, htoNat]
    · obtain ⟨hds, hne⟩ := matchFrame_inv hmatch
      have hdig : ∀ c ∈ ds, isDigitChar c = true := by
        intro c hc
        rw [hds] at hc
        exact List.mem_takeWhile_imp hc
      have hlt : digitsToNat ds < 10 ^ ds.length := digitsToNat_lt hdig
      have hw1 : 1 ≤ ds.length := List.length_pos.mpr hne
      exact zfill_length (natToDec_length hw1 (lt_of_le_of_lt (Nat.sub_le _ _) hlt))
  · intro hk
    have hneg : (digitsToNat ds : Int) - (k : Int) < 0 := by omega
    simp only [get_previous_frame_url, if_neg hurl, hmatch]
    rw [if_pos hneg]

theorem c2_prev_frame_url_witness :
    matchFrame ((splitSlash ("a/05.x" : String).data).getLastD [])
      = some (['0', '5'], ['x'])
    ∧ ((1 ≤ 2 → 2 ≤ digitsToNat ['0', '5'] →
        get_previous_frame_url "a/05.x" ((2 : Nat) : Int)
          = String.mk (List.intercalate ['/'] ((splitSlash ("a/05.x" : String).data).dropLast ++
              [zfill (['0', '5'] : List Char).length
                 (natToDec (digitsToNat ['0', '5'] - 2)) ++ '.' :: ['x']]))
        ∧ (zfill (['0', '5'] : List Char).length
             (natToDec (digitsToNat ['0', '5'] - 2))).length
            = (['0', '5'] : List Char).length)
      ∧ (digitsToNat ['0', '5'] < 2 →
          get_previous_frame_url "a/05.x" ((2 : Nat) : Int) = "")) :=
  ⟨by decide, c2_prev_frame_url "a/05.x" 2 ['0', '5'] ['x'] (by decide)⟩

/-- C3: `prepare_file` is a pure function of the input rows and the
random stream drawn from the seeded generator; two runs over the same
input with streams that agree everywhere (as they do for a fixed seed)
produce identical output rows, in the same order, with the same A/B
placement and `model_position` in every row. -/
theorem c3_fixed_seed_reproducible (rows : List RawRow) (rng1 rng2 : Nat → Bool)
    (h : ∀ i, rng1 i = rng2 i) :
    prepare_file rows rng1 = prepare_file rows rng2 := by
  rw [funext h]

theorem c3_fixed_seed_reproducible_witness :
    prepare_file [RawRow.mk "img/000010.jpg" "a dog" "a robot dog"] (fun _ => true)
      = prepare_file [RawRow.mk "img/000010.jpg" "a dog" "a robot dog"] (fun _ => true) :=
  c3_fixed_seed_reproducible _ (fun _ => true) (fun _ => true) (fun _ => rfl)

lemma removeExactDuplicates_drop_mem (r2 : RawRow) :
    ∀ (ys zs : List RawRow) (seen : List (String × String × String)),
      dedupKey r2 ∈ seen →
      removeExactDuplicates (ys ++ r2 :: zs) seen = removeExactDuplicates (ys ++ zs) seen := by
  intro ys
  induction ys with
  | nil =>
    intro zs seen h
    simp only [List.nil_append, removeExactDuplicates, if_pos h]
  | cons y t ih =>
    intro zs seen h
    simp only [List.cons_append, removeExactDuplicates]
    by_cases hy : dedupKey y ∈ seen
    · rw [if_pos hy, if_pos hy]
      exact ih zs seen h
    · rw [if_neg hy, if_neg hy]
      congr 1
      exact ih zs _ (List.mem_cons_of_mem _ h)

lemma removeExactDuplicates_second_drop (r1 r2 : RawRow) (h : dedupKey r1 = dedupKey r2) :
    ∀ (xs ys zs : List RawRow) (seen : List (String × String × String)),
      removeExactDuplicates (xs ++ r1 :: (ys ++ r2 :: zs)) seen
        = removeExactDuplicates (xs ++ r1 :: (ys ++ zs)) seen := by
  intro xs
  induction xs with
  | nil =>
    intro ys zs seen
    simp only [List.nil_append, removeExactDuplicates]
    by_cases h1 : dedupKey r1 ∈ seen
    · rw [if_pos h1, if_pos h1]
      exact removeExactDuplicates_drop_mem r2 ys zs seen (h ▸ h1)
    · rw [if_neg h1, if_neg h1]
      congr 1
      exact removeExactDuplicates_drop_mem r2 ys zs _ (by rw [← h]; exact List.mem_cons_self _ _)
  | cons x t ih =>
    intro ys zs seen
    simp only [List.cons_append, removeExactDuplicates]
    by_cases hx : dedupKey x ∈ seen
    · rw [if_pos hx, if_pos hx]
      exact ih ys zs seen
    · rw [if_neg hx, if_neg hx]
      congr 1
      exact ih ys zs _

lemma removeExactDuplicates_sublist :
    ∀ (l : List RawRow) (seen : List (String × String × String)),
      (removeExactDuplicates l seen).Sublist l := by
  intro l
  induction l with
  | nil => intro seen; simp [removeExactDuplicates]
  | cons r t ih =>
    intro seen
    simp only [removeExactDuplicates]
    by_cases h : dedupKey r ∈ seen
    · rw [if_pos h]
      exact (ih seen).cons r
    · rw [if_neg h]
      exact (ih _).cons₂ r

lemma removeExactDuplicates_keys_nodup :
    ∀ (l : List RawRow) (seen : List (String × String × String)),
      ((removeExactDuplicates l seen).map dedupKey).Nodup
      ∧ ∀ k ∈ (removeExactDuplicates l seen).map dedupKey, k ∉ seen := by
  intro l
  induction l with
  | nil => intro seen; simp [removeExactDuplicates]
  | cons r t ih =>
    intro seen
    simp only [removeExactDuplicates]
    by_cases h : dedupKey r ∈ seen
    · rw [if_pos h]
      exact ih seen
    · rw [if_neg h]
      obtain ⟨h1, h2⟩ := ih (dedupKey r :: seen)
      refine ⟨?_, ?_⟩
      · simp only [List.map_cons, List.nodup_cons]
        exact ⟨fun hmem => (h2 _ hmem) (List.mem_cons_self _ _), h1⟩
      · intro k hk
        rcases List.mem_cons.mp hk with rfl | hk2
        · exact h
        · exact fun hs => h2 k hk2 (List.mem_cons_of_mem _ hs)

lemma removeExactDuplicates_keys_mem :
    ∀ (l : List RawRow) (seen : List (String × String × String)) (k : String × String × String),
      k ∈ l.map dedupKey → k ∉ seen →
      k ∈ (removeExactDuplicates l seen).map dedupKey := by
  intro l
  induction l with
  | nil => intro seen k h _; simp at h
  | cons r t ih =>
    intro seen k hk hns
    simp only [List.map_cons, List.mem_cons] at hk
    simp only [removeExactDuplicates]
    by_cases h : dedupKey r ∈ seen
    · rw [if_pos h]
      rcases hk with rfl | hk2
      · exact absurd h hns
      · exact ih seen k hk2 hns
    · rw [if_neg h]
      by_cases hkr : k = dedupKey r
      · subst hkr
        simp
      · simp only [List.map_cons, List.mem_cons]
        rcases hk with rfl | hk2
        · exact absurd rfl hkr
        · refine Or.inr (ih _ k hk2 ?_)
          intro hmem
          rcases List.mem_cons.mp hmem with h3 | h3
          · exact hkr h3
          · exact hns h3

lemma nodup_countP_eq_one :
    ∀ (l : List (String × String × String)), l.Nodup →
      ∀ k ∈ l, l.countP (fun x => decide (x = k)) = 1 := by
  intro l
  induction l with
  | nil => intro _ k hk; simp at hk
  | cons a t ih =>
    intro hnd k hk
    simp only [List.nodup_cons] at hnd
    obtain ⟨hna, hnt⟩ := hnd
    rcases List.mem_cons.mp hk with rfl | hkt
    · have hz : t.countP (fun x => decide (x = k)) = 0 := by
        rw [List.countP_eq_zero]
        intro b hb
        simp only [decide_eq_true_eq]
        intro hbk
        exact hna (hbk ▸ hb)
      simp [List.countP_cons, hz]
    · have hne : a ≠ k := fun he => hna (he ▸ hkt)
      simp [List.countP_cons, hne, ih hnt k hkt]

/-- C7: a later record whose stripped
(image, original, generated) triple duplicates an earlier one produces
no output at all (the whole run is as if it were absent), the surviving
rows are a sublist of the input (first-seen order preserved), and
exactly one record with that triple survives deduplication. -/
theorem c7_exact_duplicates_deduplicated (r1 r2 : RawRow) (h : dedupKey r1 = dedupKey r2)
    (xs ys zs : List RawRow) (rng : Nat → Bool) :
    prepare_file (xs ++ r1 :: (ys ++ r2 :: zs)) rng
      = prepare_file (xs ++ r1 :: (ys ++ zs)) rng
    ∧ (removeExactDuplicates (xs ++ r1 :: (ys ++ r2 :: zs)) []).Sublist
        (xs ++ r1 :: (ys ++ r2 :: zs))
    ∧ ((removeExactDuplicates (xs ++ r1 :: (ys ++ r2 :: zs)) []).map dedupKey).countP
        (fun x => decide (x = dedupKey r1)) = 1 := by
  refine ⟨?_, removeExactDuplicates_sublist _ _, ?_⟩
  · unfold prepare_file
    rw [removeExactDuplicates_second_drop r1 r2 h xs ys zs []]
  · refine nodup_countP_eq_one _ (removeExactDuplicates_keys_nodup _ _).1 _ ?_
    refine removeExactDuplicates_keys_mem _ _ _ ?_ (by simp)
    exact List.mem_map_of_mem dedupKey (by simp)

theorem c7_exact_duplicates_deduplicated_witness :
    dedupKey (RawRow.mk "i" "o" "g") = dedupKey (RawRow.mk "i" "o" "g")
    ∧ (prepare_file ([] ++ RawRow.mk "i" "o" "g" :: ([] ++ RawRow.mk "i" "o" "g" :: []))
         (fun _ => true)
         = prepare_file ([] ++ RawRow.mk "i" "o" "g" :: ([] ++ [])) (fun _ => true)
      ∧ (removeExactDuplicates
           ([] ++ RawRow.mk "i" "o" "g" :: ([] ++ RawRow.mk "i" "o" "g" :: [])) []).Sublist
          ([] ++ RawRow.mk "i" "o" "g" :: ([] ++ RawRow.mk "i" "o" "g" :: []))
      ∧ ((removeExactDuplicates
            ([] ++ RawRow.mk "i" "o" "g" :: ([] ++ RawRow.mk "i" "o" "g" :: [])) []).map
            dedupKey).countP (fun x => decide (x = dedupKey (RawRow.mk "i" "o" "g"))) = 1) :=
  ⟨rfl, c7_exact_duplicates_deduplicated (RawRow.mk "i" "o" "g") (RawRow.mk "i" "o" "g")
    rfl [] [] [] (fun _ => true)⟩

lemma filterUniqueOrig_drop (r2 : RawRow) :
    ∀ (ys zs : List RawRow) (seen : List (String × String)),
      (pyStrip r2.image_url = "" ∨ pyStrip r2.original_description = ""
        ∨ imgOrigKey r2 ∈ seen) →
      filterUniqueOrig (ys ++ r2 :: zs) seen = filterUniqueOrig (ys ++ zs) seen := by
  intro ys
  induction ys with
  | nil =>
    intro zs seen h
    simp only [List.nil_append, filterUniqueOrig]
    rcases h with h | h | h
    · rw [if_pos (Or.inl h)]
    · rw [if_pos (Or.inr h)]
    · by_cases he : pyStrip r2.image_url = "" ∨ pyStrip r2.original_description = ""
      · rw [if_pos he]
      · rw [if_neg he, if_pos h]
  | cons y t ih =>
    intro zs seen h
    simp only [List.cons_append, filterUniqueOrig]
    by_cases he : pyStrip y.image_url = "" ∨ pyStrip y.original_description = ""
    · rw [if_pos he, if_pos he]
      exact ih zs seen h
    · rw [if_neg he, if_neg he]
      by_cases hm : imgOrigKey y ∈ seen
      · rw [if_pos hm, if_pos hm]
        exact ih zs seen h
      · rw [if_neg hm, if_neg hm]
        congr 1
        refine ih zs _ ?_
        rcases h with h | h | h
        · exact Or.inl h
        · exact Or.inr (Or.inl h)
        · exact Or.inr (Or.inr (List.mem_cons_of_mem _ h))

lemma filterUniqueOrig_second_drop (r1 r2 : RawRow)
    (himg : pyStrip r1.image_url = pyStrip r2.image_url)
    (horig : pyStrip r1.original_description = pyStrip r2.original_description) :
    ∀ (xs ys zs : List RawRow) (seen : List (String × String)),
      filterUniqueOrig (xs ++ r1 :: (ys ++ r2 :: zs)) seen
        = filterUniqueOrig (xs ++ r1 :: (ys ++ zs)) seen := by
  have hkey : imgOrigKey r1 = imgOrigKey r2 := by
    simp [imgOrigKey, himg, horig]
  intro xs
  induction xs with
  | nil =>
    intro ys zs seen
    simp only [List.nil_append, filterUniqueOrig]
    by_cases he : pyStrip r1.image_url = "" ∨ pyStrip r1.original_description = ""
    · rw [if_pos he, if_pos he]
      refine filterUniqueOrig_drop r2 ys zs seen ?_
      rcases he with he | he
      · exact Or.inl (himg ▸ he)
      · exact Or.inr (Or.inl (horig ▸ he))
    · rw [if_neg he, if_neg he]
      by_cases hm : imgOrigKey r1 ∈ seen
      · rw [if_pos hm, if_pos hm]
        exact filterUniqueOrig_drop r2 ys zs seen (Or.inr (Or.inr (hkey ▸ hm)))
      · rw [if_neg hm, if_neg hm]
        congr 1
        exact filterUniqueOrig_drop r2 ys zs _
          (Or.inr (Or.inr (by rw [← hkey]; exact List.mem_cons_self _ _)))
  | cons x t ih =>
    intro ys zs seen
    simp only [List.cons_append, filterUniqueOrig]
    by_cases he : pyStrip x.image_url = "" ∨ pyStrip x.original_description = ""
    · rw [if_pos he, if_pos he]
      exact ih ys zs seen
    · rw [if_neg he, if_neg he]
      by_cases hm : imgOrigKey x ∈ seen
      · rw [if_pos hm, if_pos hm]
        exact ih ys zs seen
      · rw [if_neg hm, if_neg hm]
        congr 1
        exact ih ys zs _

/-- C8: after deduplication, a later record with the same stripped image
URL and original caption as an earlier one (the generated captions
differing) is dropped by the per-image uniqueness filter: the filtered
list, and hence the produced output rows, are exactly those obtained
without it. -/
theorem c8_per_image_original_unique (r1 r2 : RawRow)
    (himg : pyStrip r1.image_url = pyStrip r2.image_url)
    (horig : pyStrip r1.original_description = pyStrip r2.original_description)
    (_hgen : pyStrip r1.generated_description ≠ pyStrip r2.generated_description)
    (xs ys zs : List RawRow) (seen : List (String × String)) (rng : Nat → Bool) :
    filterUniqueOrig (xs ++ r1 :: (ys ++ r2 :: zs)) seen
      = filterUniqueOrig (xs ++ r1 :: (ys ++ zs)) seen
    ∧ prepareRows (filterUniqueOrig (xs ++ r1 :: (ys ++ r2 :: zs)) []) rng 0
        = prepareRows (filterUniqueOrig (xs ++ r1 :: (ys ++ zs)) []) rng 0 := by
  refine ⟨filterUniqueOrig_second_drop r1 r2 himg horig xs ys zs seen, ?_⟩
  rw [filterUniqueOrig_second_drop r1 r2 himg horig xs ys zs []]

theorem c8_per_image_original_unique_witness :
    pyStrip (RawRow.mk "i" "o" "g1").image_url = pyStrip (RawRow.mk "i" "o" "g2").image_url
    ∧ pyStrip (RawRow.mk "i" "o" "g1").original_description
        = pyStrip (RawRow.mk "i" "o" "g2").original_description
    ∧ pyStrip (RawRow.mk "i" "o" "g1").generated_description
        ≠ pyStrip (RawRow.mk "i" "o" "g2").generated_description
    ∧ (filterUniqueOrig
         ([] ++ RawRow.mk "i" "o" "g1" :: ([] ++ RawRow.mk "i" "o" "g2" :: [])) []
         = filterUniqueOrig ([] ++ RawRow.mk "i" "o" "g1" :: ([] ++ [])) []
      ∧ prepareRows (filterUniqueOrig
          ([] ++ RawRow.mk "i" "o" "g1" :: ([] ++ RawRow.mk "i" "o" "g2" :: [])) [])
          (fun _ => true) 0
        = prepareRows (filterUniqueOrig
            ([] ++ RawRow.mk "i" "o" "g1" :: ([] ++ [])) []) (fun _ => true) 0) :=
  ⟨rfl, rfl, by decide,
   c8_per_image_original_unique (RawRow.mk "i" "o" "g1") (RawRow.mk "i" "o" "g2")
     rfl rfl (by decide) [] [] [] [] (fun _ => true)⟩

lemma prepareRows_skip_incomplete (r : RawRow)
    (h : pyStrip r.image_url = "" ∨ pyStrip r.original_description = ""
      ∨ pyStrip r.generated_description = "") :
    ∀ (as bs : List RawRow) (rng : Nat → Bool) (i : Nat),
      prepareRows (as ++ r :: bs) rng i = prepareRows (as ++ bs) rng i := by
  intro as
  induction as with
  | nil =>
    intro bs rng i
    simp only [List.nil_append, prepareRows, if_pos h]
  | cons a t ih =>
    intro bs rng i
    simp only [List.cons_append, prepareRows]
    by_cases ha : pyStrip a.image_url = "" ∨ pyStrip a.original_description = ""
        ∨ pyStrip a.generated_description = ""
    · rw [if_pos ha, if_pos ha]
      exact ih bs rng i
    · rw [if_neg ha, if_neg ha]
      congr 1
      exact ih bs rng (i + 1)

/-- C10: a record with non-empty stripped image URL and original caption
but empty generated caption registers its (image, original) pair in the
per-image filter yet produces no output row and consumes no coin flip;
consequently a later, complete record with the same pair is dropped. -/
theorem c10_incomplete_record_registers_pair (r1 r2 : RawRow)
    (himg : pyStrip r1.image_url = pyStrip r2.image_url)
    (horig : pyStrip r1.original_description = pyStrip r2.original_description)
    (himg_ne : pyStrip r1.image_url ≠ "")
    (horig_ne : pyStrip r1.original_description ≠ "")
    (hgen : pyStrip r1.generated_description = "")
    (xs ys zs as bs : List RawRow) (seen : List (String × String))
    (rng : Nat → Bool) (i : Nat) :
    filterUniqueOrig (xs ++ r1 :: (ys ++ r2 :: zs)) seen
      = filterUniqueOrig (xs ++ r1 :: (ys ++ zs)) seen
    ∧ prepareRows (as ++ r1 :: bs) rng i = prepareRows (as ++ bs) rng i
    ∧ (imgOrigKey r1 ∉ seen →
        filterUniqueOrig (r1 :: ys) seen
          = r1 :: filterUniqueOrig ys (imgOrigKey r1 :: seen)) := by
  refine ⟨filterUniqueOrig_second_drop r1 r2 himg horig xs ys zs seen,
    prepareRows_skip_incomplete r1 (Or.inr (Or.inr hgen)) as bs rng i, ?_⟩
  intro hfresh
  have hne : ¬ (pyStrip r1.image_url = "" ∨ pyStrip r1.original_description = "") := by
    rintro (h | h)
    · exact himg_ne h
    · exact horig_ne h
  simp only [filterUniqueOrig]
  rw [if_neg hne, if_neg hfresh]

theorem c10_incomplete_record_registers_pair_witness :
    pyStrip (RawRow.mk "i" "o" "").image_url = pyStrip (RawRow.mk "i" "o" "g").image_url
    ∧ pyStrip (RawRow.mk "i" "o" "").original_description
        = pyStrip (RawRow.mk "i" "o" "g").original_description
    ∧ pyStrip (RawRow.mk "i" "o" "").image_url ≠ ""
    ∧ pyStrip (RawRow.mk "i" "o" "").original_description ≠ ""
    ∧ pyStrip (RawRow.mk "i" "o" "").generated_description = ""
    ∧ (filterUniqueOrig
         ([] ++ RawRow.mk "i" "o" "" :: ([] ++ RawRow.mk "i" "o" "g" :: [])) []
         = filterUniqueOrig ([] ++ RawRow.mk "i" "o" "" :: ([] ++ [])) []
      ∧ prepareRows ([] ++ RawRow.mk "i" "o" "" :: []) (fun _ => true) 0
          = prepareRows ([] ++ []) (fun _ => true) 0
      ∧ (imgOrigKey (RawRow.mk "i" "o" "") ∉ ([] : List (String × String)) →
          filterUniqueOrig (RawRow.mk "i" "o" "" :: []) []
            = RawRow.mk "i" "o" "" ::
                filterUniqueOrig [] (imgOrigKey (RawRow.mk "i" "o" "") :: []))) :=
  ⟨rfl, rfl, by decide, by decide, rfl,
   c10_incomplete_record_registers_pair (RawRow.mk "i" "o" "") (RawRow.mk "i" "o" "g")
     rfl rfl (by decide) (by decide) rfl [] [] [] [] [] [] (fun _ => true) 0⟩

lemma filterUniqueOrig_sublist :
    ∀ (l : List RawRow) (seen : List (String × String)),
      (filterUniqueOrig l seen).Sublist l := by
  intro l
  induction l with
  | nil => intro seen; simp [filterUniqueOrig]
  | cons r t ih =>
    intro seen
    simp only [filterUniqueOrig]
    by_cases he : pyStrip r.image_url = "" ∨ pyStrip r.original_description = ""
    · rw [if_pos he]
      exact (ih seen).cons r
    · rw [if_neg he]
      by_cases hm : imgOrigKey r ∈ seen
      · rw [if_pos hm]
        exact (ih seen).cons r
      · rw [if_neg hm]
        exact (ih _).cons₂ r

lemma prepareRows_mem (l : List RawRow) (rng : Nat → Bool) :
    ∀ (i : Nat) (row : PreparedRow), row ∈ prepareRows l rng i →
      ∃ r ∈ l,
        ((row.model_position = "A" ∧ row.description_a = pyStrip r.generated_description
            ∧ row.description_b = pyStrip r.original_description)
         ∨ (row.model_position = "B" ∧ row.description_b = pyStrip r.generated_description
            ∧ row.description_a = pyStrip r.original_description)) := by
  induction l with
  | nil => intro i row h; simp [prepareRows] at h
  | cons r t ih =>
    intro i row h
    simp only [prepareRows] at h
    by_cases hc : pyStrip r.image_url = "" ∨ pyStrip r.original_description = ""
        ∨ pyStrip r.generated_description = ""
    · rw [if_pos hc] at h
      obtain ⟨r2, hr2, hprop⟩ := ih i row h
      exact ⟨r2, List.mem_cons_of_mem _ hr2, hprop⟩
    · rw [if_neg hc] at h
      rcases List.mem_cons.mp h with rfl | hmem
      · refine ⟨r, List.mem_cons_self _ _, ?_⟩
        by_cases hr : rng i
        · rw [if_pos hr]
          exact Or.inl ⟨rfl, rfl, rfl⟩
        · rw [if_neg hr]
          exact Or.inr ⟨rfl, rfl, rfl⟩
      · obtain ⟨r2, hr2, hprop⟩ := ih (i + 1) row hmem
        exact ⟨r2, List.mem_cons_of_mem _ hr2, hprop⟩

/-- C1 as frozen is false for the code: a record whose original and
generated captions coincide survives every filter, and its output row
holds the generated caption in both positions, so "exactly one of
description_a/description_b equals the generated caption" fails. -/
theorem c1_exactly_one_counterexample :
    prepare_file [RawRow.mk "i" "x" "x"] (fun _ => true)
      = some [PreparedRow.mk "" "i" "x" "x" "A"]
    ∧ pyStrip (RawRow.mk "i" "x" "x").generated_description = "x"
    ∧ ¬ (((PreparedRow.mk "" "i" "x" "x" "A").description_a = "x"
            ∧ ¬ (PreparedRow.mk "" "i" "x" "x" "A").description_b = "x")
         ∨ ((PreparedRow.mk "" "i" "x" "x" "A").description_b = "x"
            ∧ ¬ (PreparedRow.mk "" "i" "x" "x" "A").description_a = "x")) := by
  decide

/-- C1 amended: every output row of `prepare_file` comes from an input
record, holds that record's generated caption at the position named by
`model_position` and the original caption at the other position; when
the two captions differ, exactly one of description_a/description_b
equals the generated caption and `model_position` identifies it. -/
theorem c1_model_position_invariant (rows : List RawRow) (rng : Nat → Bool)
    (out : List PreparedRow) (hout : prepare_file rows rng = some out)
    (row : PreparedRow) (hrow : row ∈ out) :
    ∃ r ∈ rows,
      ((row.model_position = "A" ∧ row.description_a = pyStrip r.generated_description
          ∧ row.description_b = pyStrip r.original_description)
       ∨ (row.model_position = "B" ∧ row.description_b = pyStrip r.generated_description
          ∧ row.description_a = pyStrip r.original_description))
      ∧ (pyStrip r.original_description ≠ pyStrip r.generated_description →
          ((row.description_a = pyStrip r.generated_description
              ∧ ¬ row.description_b = pyStrip r.generated_description
              ∧ row.model_position = "A")
           ∨ (row.description_b = pyStrip r.generated_description
              ∧ ¬ row.description_a = pyStrip r.generated_description
              ∧ row.model_position = "B"))) := by
  simp only [prepare_file] at hout
  split at hout
  · exact absurd hout (by simp)
  · split at hout
    · exact absurd hout (by simp)
    · split at hout
      · exact absurd hout (by simp)
      · have hout2 : prepareRows (filterUniqueOrig (removeExactDuplicates rows []) []) rng 0
            = out := by
          injection hout
        rw [← hout2] at hrow
        obtain ⟨r, hrl, hdisj⟩ := prepareRows_mem _ rng 0 row hrow
        have hmem : r ∈ rows :=
          (removeExactDuplicates_sublist rows []).subset
            ((filterUniqueOrig_sublist (removeExactDuplicates rows []) []).subset hrl)
        refine ⟨r, hmem, hdisj, ?_⟩
        intro hneq
        rcases hdisj with ⟨hA, ha, hb⟩ | ⟨hB, hb, ha⟩
        · exact Or.inl ⟨ha, by rw [hb]; exact hneq, hA⟩
        · exact Or.inr ⟨hb, by rw [ha]; exact hneq, hB⟩

theorem c1_model_position_invariant_witness :
    (prepare_file [RawRow.mk "i" "o" "g"] (fun _ => true)
       = some [PreparedRow.mk "" "i" "g" "o" "A"]
     ∧ PreparedRow.mk "" "i" "g" "o" "A" ∈ [PreparedRow.mk "" "i" "g" "o" "A"])
    ∧ ∃ r ∈ [RawRow.mk "i" "o" "g"],
        (((PreparedRow.mk "" "i" "g" "o" "A").model_position = "A"
            ∧ (PreparedRow.mk "" "i" "g" "o" "A").description_a
                = pyStrip r.generated_description
            ∧ (PreparedRow.mk "" "i" "g" "o" "A").description_b
                = pyStrip r.original_description)
         ∨ ((PreparedRow.mk "" "i" "g" "o" "A").model_position = "B"
            ∧ (PreparedRow.mk "" "i" "g" "o" "A").description_b
                = pyStrip r.generated_description
            ∧ (PreparedRow.mk "" "i" "g" "o" "A").description_a
                = pyStrip r.original_description))
        ∧ (pyStrip r.original_description ≠ pyStrip r.generated_description →
            (((PreparedRow.mk "" "i" "g" "o" "A").description_a
                = pyStrip r.generated_description
              ∧ ¬ (PreparedRow.mk "" "i" "g" "o" "A").description_b
                  = pyStrip r.generated_description
              ∧ (PreparedRow.mk "" "i" "g" "o" "A").model_position = "A")
             ∨ ((PreparedRow.mk "" "i" "g" "o" "A").description_b
                = pyStrip r.generated_description
              ∧ ¬ (PreparedRow.mk "" "i" "g" "o" "A").description_a
                  = pyStrip r.generated_description
              ∧ (PreparedRow.mk "" "i" "g" "o" "A").model_position = "B"))) :=
  ⟨⟨by decide, by decide⟩,
   c1_model_position_invariant [RawRow.mk "i" "o" "g"] (fun _ => true)
     [PreparedRow.mk "" "i" "g" "o" "A"] (by decide)
     (PreparedRow.mk "" "i" "g" "o" "A") (by decide)⟩

lemma classify_rows (t : Tally) (c mp : String) : (classify t c mp).rows = t.rows := by
  unfold classify
  split
  · rfl
  · split
    · split
      · rfl
      · rfl
    · rfl

lemma classify_sum (t : Tally) (c mp : String) :
    (classify t c mp).win + (classify t c mp).lose + (classify t c mp).tie
      = t.win + t.lose + t.tie + 1 := by
  unfold classify
  split
  · simp only
    omega
  · split
    · split
      · simp only
        omega
      · simp only
        omega
    · simp only
      omega

lemma classify_mono (t : Tally) (c mp : String) :
    t.win ≤ (classify t c mp).win ∧ t.lose ≤ (classify t c mp).lose
      ∧ t.tie ≤ (classify t c mp).tie := by
  unfold classify
  split
  · simp only
    omega
  · split
    · split
      · simp only
        omega
      · simp only
        omega
    · simp only
      omega

lemma processResponse_stats_unmatched (datasets : List (DatasetConfig × List PreparedRow))
    (st : AnalyzeState) (r : ResponseRow)
    (hl : load_comparison_lookup datasets (respKey r) = []) :
    (processResponse datasets st r).stats = st.stats := by
  unfold processResponse
  rw [hl]

lemma processResponse_stats_nomodel (datasets : List (DatasetConfig × List PreparedRow))
    (st : AnalyzeState) (r : ResponseRow) (dsKey mp : String) (tl : List (String × String))
    (hl : load_comparison_lookup datasets (respKey r) = (dsKey, mp) :: tl)
    (hm : findModel datasets dsKey = none) :
    (processResponse datasets st r).stats = st.stats := by
  unfold processResponse
  rw [hl]
  simp only [hm]
  by_cases htl : tl = [] <;> simp [htl]

lemma processResponse_stats_matched (datasets : List (DatasetConfig × List PreparedRow))
    (st : AnalyzeState) (r : ResponseRow) (dsKey mp m0 : String)
    (tl : List (String × String))
    (hl : load_comparison_lookup datasets (respKey r) = (dsKey, mp) :: tl)
    (hm : findModel datasets dsKey = some m0) :
    (processResponse datasets st r).stats
      = bumpStats st.stats m0 (pyStrip r.choice) mp := by
  unfold processResponse
  rw [hl]
  simp only [hm]
  by_cases htl : tl = [] <;> simp [htl]

lemma processResponse_ambiguous_multi (datasets : List (DatasetConfig × List PreparedRow))
    (st : AnalyzeState) (r : ResponseRow) (dsKey mp : String) (tl : List (String × String))
    (hl : load_comparison_lookup datasets (respKey r) = (dsKey, mp) :: tl)
    (htl : tl ≠ []) :
    (processResponse datasets st r).ambiguous
      = st.ambiguous ++ [(respKey r, (dsKey, mp) :: tl)] := by
  unfold processResponse
  rw [hl]
  cases hm : findModel datasets dsKey <;> simp [htl, hm]

lemma processResponse_stats_step (datasets : List (DatasetConfig × List PreparedRow))
    (st : AnalyzeState) (r : ResponseRow) (m : String) :
    (processResponse datasets st r).stats m = st.stats m
    ∨ (((processResponse datasets st r).stats m).rows = (st.stats m).rows + 1
       ∧ ((processResponse datasets st r).stats m).win
           + ((processResponse datasets st r).stats m).lose
           + ((processResponse datasets st r).stats m).tie
         = (st.stats m).win + (st.stats m).lose + (st.stats m).tie + 1
       ∧ (st.stats m).win ≤ ((processResponse datasets st r).stats m).win
       ∧ (st.stats m).lose ≤ ((processResponse datasets st r).stats m).lose
       ∧ (st.stats m).tie ≤ ((processResponse datasets st r).stats m).tie) := by
  cases hl : load_comparison_lookup datasets (respKey r) with
  | nil =>
    left
    rw [processResponse_stats_unmatched datasets st r hl]
  | cons hd tl =>
    obtain ⟨dsKey, mp⟩ := hd
    cases hm : findModel datasets dsKey with
    | none =>
      left
      rw [processResponse_stats_nomodel datasets st r dsKey mp tl hl hm]
    | some m0 =>
      rw [processResponse_stats_matched datasets st r dsKey mp m0 tl hl hm]
      by_cases hmm : m = m0
      · subst hmm
        right
        simp only [bumpStats, if_pos rfl, if_true, eq_self_iff_true]
        refine ⟨?_, ?_, ?_⟩
        · rw [classify_rows]
        · have h2 := classify_sum { st.stats m with rows := (st.stats m).rows + 1 }
            (pyStrip r.choice) mp
          simpa using h2
        · have h3 := classify_mono { st.stats m with rows := (st.stats m).rows + 1 }
            (pyStrip r.choice) mp
          simpa using h3
      · left
        simp only [bumpStats, if_neg hmm]

/-- C4: after any run of the analyzer, every model's tally satisfies
rows = win + lose + tie; and a single response never decrements any
counter, incrementing rows at most once and, when it does, exactly one
of win/lose/tie by exactly one. -/
theorem c4_rows_eq_win_lose_tie :
    (∀ (datasets : List (DatasetConfig × List PreparedRow)) (responses : List ResponseRow)
       (m : String),
       ((analyze_results datasets responses).stats m).rows
         = ((analyze_results datasets responses).stats m).win
           + ((analyze_results datasets responses).stats m).lose
           + ((analyze_results datasets responses).stats m).tie)
    ∧ (∀ (datasets : List (DatasetConfig × List PreparedRow)) (st : AnalyzeState)
        (r : ResponseRow) (m : String),
        (processResponse datasets st r).stats m = st.stats m
        ∨ (((processResponse datasets st r).stats m).rows = (st.stats m).rows + 1
           ∧ ((processResponse datasets st r).stats m).win
               + ((processResponse datasets st r).stats m).lose
               + ((processResponse datasets st r).stats m).tie
             = (st.stats m).win + (st.stats m).lose + (st.stats m).tie + 1
           ∧ (st.stats m).win ≤ ((processResponse datasets st r).stats m).win
           ∧ (st.stats m).lose ≤ ((processResponse datasets st r).stats m).lose
           ∧ (st.stats m).tie ≤ ((processResponse datasets st r).stats m).tie)) := by
  constructor
  · intro datasets responses m
    have main : ∀ (rs : List ResponseRow) (st : AnalyzeState),
        (∀ m2, (st.stats m2).rows = (st.stats m2).win + (st.stats m2).lose + (st.stats m2).tie) →
        ∀ m2, ((List.foldl (processResponse datasets) st rs).stats m2).rows
          = ((List.foldl (processResponse datasets) st rs).stats m2).win
            + ((List.foldl (processResponse datasets) st rs).stats m2).lose
            + ((List.foldl (processResponse datasets) st rs).stats m2).tie := by
      intro rs
      induction rs with
      | nil => intro st h m2; exact h m2
      | cons r t ih =>
        intro st h m2
        refine ih (processResponse datasets st r) ?_ m2
        intro m3
        rcases processResponse_stats_step datasets st r m3 with he | ⟨h1, h2, _⟩
        · rw [he]
          exact h m3
        · rw [h1, h2]
          rw [h m3]
    exact main responses _ (fun m2 => rfl) m
  · exact processResponse_stats_step

/-- C5: for a matched response, choice "Neither" is a tie; a choice of
exactly "A" or "B" together with a recorded model_position of exactly
"A" or "B" is a win precisely when they agree and a loss otherwise; any
other combination is a tie, never a win or a loss.  (Choice and
model_position are compared after stripping, exactly as the code reads
every CSV field.) -/
theorem c5_choice_classification (datasets : List (DatasetConfig × List PreparedRow))
    (st : AnalyzeState) (r : ResponseRow) (dsKey mp m : String)
    (rest : List (String × String))
    (hmatch : load_comparison_lookup datasets (respKey r) = (dsKey, mp) :: rest)
    (hmodel : findModel datasets dsKey = some m) :
    ((processResponse datasets st r).stats m).rows = (st.stats m).rows + 1
    ∧ (pyStrip r.choice = "Neither" →
        ((processResponse datasets st r).stats m).tie = (st.stats m).tie + 1
        ∧ ((processResponse datasets st r).stats m).win = (st.stats m).win
        ∧ ((processResponse datasets st r).stats m).lose = (st.stats m).lose)
    ∧ ((pyStrip r.choice = "A" ∨ pyStrip r.choice = "B") → (mp = "A" ∨ mp = "B") →
        ((pyStrip r.choice = mp →
            ((processResponse datasets st r).stats m).win = (st.stats m).win + 1
            ∧ ((processResponse datasets st r).stats m).lose = (st.stats m).lose
            ∧ ((processResponse datasets st r).stats m).tie = (st.stats m).tie)
         ∧ (pyStrip r.choice ≠ mp →
            ((processResponse datasets st r).stats m).lose = (st.stats m).lose + 1
            ∧ ((processResponse datasets st r).stats m).win = (st.stats m).win
            ∧ ((processResponse datasets st r).stats m).tie = (st.stats m).tie)))
    ∧ (pyStrip r.choice ≠ "Neither" →
        ¬ ((pyStrip r.choice = "A" ∨ pyStrip r.choice = "B") ∧ (mp = "A" ∨ mp = "B")) →
        ((processResponse datasets st r).stats m).tie = (st.stats m).tie + 1
        ∧ ((processResponse datasets st r).stats m).win = (st.stats m).win
        ∧ ((processResponse datasets st r).stats m).lose = (st.stats m).lose) := by
  have hstats : (processResponse datasets st r).stats m
      = classify { st.stats m with rows := (st.stats m).rows + 1 } (pyStrip r.choice) mp := by
    rw [processResponse_stats_matched datasets st r dsKey mp m rest hmatch hmodel]
    simp only [bumpStats, if_pos rfl, if_true, eq_self_iff_true]
  rw [hstats]
  refine ⟨?_, ?_, ?_, ?_⟩
  · rw [classify_rows]
  · intro hc
    unfold classify
    rw [if_pos hc]
    exact ⟨rfl, rfl, rfl⟩
  · intro hcab hmpab
    have hcn : pyStrip r.choice ≠ "Neither" := by
      rcases hcab with h | h
      · rw [h]
        decide
      · rw [h]
        decide
    constructor
    · intro heq
      unfold classify
      rw [if_neg hcn, if_pos (And.intro hcab hmpab), if_pos heq]
      exact ⟨rfl, rfl, rfl⟩
    · intro hne
      unfold classify
      rw [if_neg hcn, if_pos (And.intro hcab hmpab), if_neg hne]
      exact ⟨rfl, rfl, rfl⟩
  · intro hcn hnot
    unfold classify
    rw [if_neg hcn, if_neg hnot]
    exact ⟨rfl, rfl, rfl⟩

theorem c5_choice_classification_witness :
    load_comparison_lookup [(DatasetConfig.mk "d" "m", [PreparedRow.mk "" "c" "x" "y" "A"])]
        (respKey (ResponseRow.mk "c" "x" "y" "A")) = ("d", "A") :: []
    ∧ findModel [(DatasetConfig.mk "d" "m", [PreparedRow.mk "" "c" "x" "y" "A"])] "d"
        = some "m"
    ∧ (((processResponse [(DatasetConfig.mk "d" "m", [PreparedRow.mk "" "c" "x" "y" "A"])]
           (AnalyzeState.mk (fun _ => initTally) [] [])
           (ResponseRow.mk "c" "x" "y" "A")).stats "m").rows
         = (((AnalyzeState.mk (fun _ => initTally) [] []).stats "m")).rows + 1
      ∧ (pyStrip (ResponseRow.mk "c" "x" "y" "A").choice = "Neither" →
          ((processResponse [(DatasetConfig.mk "d" "m", [PreparedRow.mk "" "c" "x" "y" "A"])]
              (AnalyzeState.mk (fun _ => initTally) [] [])
              (ResponseRow.mk "c" "x" "y" "A")).stats "m").tie
            = (((AnalyzeState.mk (fun _ => initTally) [] []).stats "m")).tie + 1
          ∧ ((processResponse [(DatasetConfig.mk "d" "m", [PreparedRow.mk "" "c" "x" "y" "A"])]
              (AnalyzeState.mk (fun _ => initTally) [] [])
              (ResponseRow.mk "c" "x" "y" "A")).stats "m").win
            = (((AnalyzeState.mk (fun _ => initTally) [] []).stats "m")).win
          ∧ ((processResponse [(DatasetConfig.mk "d" "m", [PreparedRow.mk "" "c" "x" "y" "A"])]
              (AnalyzeState.mk (fun _ => initTally) [] [])
              (ResponseRow.mk "c" "x" "y" "A")).stats "m").lose
            = (((AnalyzeState.mk (fun _ => initTally) [] []).stats "m")).lose)
      ∧ ((pyStrip (ResponseRow.mk "c" "x" "y" "A").choice = "A"
            ∨ pyStrip (ResponseRow.mk "c" "x" "y" "A").choice = "B") →
          ("A" = "A" ∨ "A" = "B") →
          ((pyStrip (ResponseRow.mk "c" "x" "y" "A").choice = "A" →
              ((processResponse
                  [(DatasetConfig.mk "d" "m", [PreparedRow.mk "" "c" "x" "y" "A"])]
                  (AnalyzeState.mk (fun _ => initTally) [] [])
                  (ResponseRow.mk "c" "x" "y" "A")).stats "m").win
                = (((AnalyzeState.mk (fun _ => initTally) [] []).stats "m")).win + 1
              ∧ ((processResponse
                  [(DatasetConfig.mk "d" "m", [PreparedRow.mk "" "c" "x" "y" "A"])]
                  (AnalyzeState.mk (fun _ => initTally) [] [])
                  (ResponseRow.mk "c" "x" "y" "A")).stats "m").lose
                = (((AnalyzeState.mk (fun _ => initTally) [] []).stats "m")).lose
              ∧ ((processResponse
                  [(DatasetConfig.mk "d" "m", [PreparedRow.mk "" "c" "x" "y" "A"])]
                  (AnalyzeState.mk (fun _ => initTally) [] [])
                  (ResponseRow.mk "c" "x" "y" "A")).stats "m").tie
                = (((AnalyzeState.mk (fun _ => initTally) [] []).stats "m")).tie)
           ∧ (pyStrip (ResponseRow.mk "c" "x" "y" "A").choice ≠ "A" →
              ((processResponse
                  [(DatasetConfig.mk "d" "m", [PreparedRow.mk "" "c" "x" "y" "A"])]
                  (AnalyzeState.mk (fun _ => initTally) [] [])
                  (ResponseRow.mk "c" "x" "y" "A")).stats "m").lose
                = (((AnalyzeState.mk (fun _ => initTally) [] []).stats "m")).lose + 1
              ∧ ((processResponse
                  [(DatasetConfig.mk "d" "m", [PreparedRow.mk "" "c" "x" "y" "A"])]
                  (AnalyzeState.mk (fun _ => initTally) [] [])
                  (ResponseRow.mk "c" "x" "y" "A")).stats "m").win
                = (((AnalyzeState.mk (fun _ => initTally) [] []).stats "m")).win
              ∧ ((processResponse
                  [(DatasetConfig.mk "d" "m", [PreparedRow.mk "" "c" "x" "y" "A"])]
                  (AnalyzeState.mk (fun _ => initTally) [] [])
                  (ResponseRow.mk "c" "x" "y" "A")).stats "m").tie
                = (((AnalyzeState.mk (fun _ => initTally) [] []).stats "m")).tie)))
      ∧ (pyStrip (ResponseRow.mk "c" "x" "y" "A").choice ≠ "Neither" →
          ¬ ((pyStrip (ResponseRow.mk "c" "x" "y" "A").choice = "A"
                ∨ pyStrip (ResponseRow.mk "c" "x" "y" "A").choice = "B")
             ∧ ("A" = "A" ∨ "A" = "B")) →
          ((processResponse [(DatasetConfig.mk "d" "m", [PreparedRow.mk "" "c" "x" "y" "A"])]
              (AnalyzeState.mk (fun _ => initTally) [] [])
              (ResponseRow.mk "c" "x" "y" "A")).stats "m").tie
            = (((AnalyzeState.mk (fun _ => initTally) [] []).stats "m")).tie + 1
          ∧ ((processResponse [(DatasetConfig.mk "d" "m", [PreparedRow.mk "" "c" "x" "y" "A"])]
              (AnalyzeState.mk (fun _ => initTally) [] [])
              (ResponseRow.mk "c" "x" "y" "A")).stats "m").win
            = (((AnalyzeState.mk (fun _ => initTally) [] []).stats "m")).win
          ∧ ((processResponse [(DatasetConfig.mk "d" "m", [PreparedRow.mk "" "c" "x" "y" "A"])]
              (AnalyzeState.mk (fun _ => initTally) [] [])
              (ResponseRow.mk "c" "x" "y" "A")).stats "m").lose
            = (((AnalyzeState.mk (fun _ => initTally) [] []).stats "m")).lose)) :=
  ⟨by decide, by decide,
   c5_choice_classification [(DatasetConfig.mk "d" "m", [PreparedRow.mk "" "c" "x" "y" "A"])]
     (AnalyzeState.mk (fun _ => initTally) [] []) (ResponseRow.mk "c" "x" "y" "A")
     "d" "A" "m" [] (by decide) (by decide)⟩

lemma containsKey_filter_ne_nil {rows : List PreparedRow} {k : String × String × String}
    (hc : containsKey rows k = true) : rows.filter (keyPred k) ≠ [] := by
  intro hnil
  rw [List.filter_eq_nil_iff] at hnil
  obtain ⟨x, hx, hpx⟩ := List.any_eq_true.mp hc
  exact hnil x hx hpx

lemma containsKey_filter_nil {rows : List PreparedRow} {k : String × String × String}
    (hc : ¬ containsKey rows k = true) : rows.filter (keyPred k) = [] := by
  rw [List.filter_eq_nil_iff]
  intro a ha hpa
  exact hc (List.any_eq_true.mpr ⟨a, ha, hpa⟩)

lemma lookup_head_of_firstContaining :
    ∀ (datasets : List (DatasetConfig × List PreparedRow)) (k : String × String × String)
      (d : DatasetConfig) (rows : List PreparedRow),
      firstContaining datasets k = some (d, rows) →
      ∃ mp rest, load_comparison_lookup datasets k = (d.key, mp) :: rest := by
  intro datasets
  induction datasets with
  | nil => intro k d rows h; simp [firstContaining] at h
  | cons q ps ih =>
    intro k d rows h
    simp only [firstContaining] at h
    by_cases hc : containsKey q.2 k
    · rw [List.find?_cons_of_pos (p := fun x : DatasetConfig × List PreparedRow => containsKey x.2 k) _ hc] at h
      have hp : q = (d, rows) := by
        injection h
      subst hp
      cases hf : (d, rows).2.filter (keyPred k) with
      | nil => exact absurd hf (containsKey_filter_ne_nil hc)
      | cons row t =>
        refine ⟨pyStrip row.model_position,
          t.map (fun row2 => ((d, rows).1.key, pyStrip row2.model_position))
            ++ load_comparison_lookup ps k, ?_⟩
        simp only [load_comparison_lookup, List.flatMap_cons, hf, List.map_cons,
          List.cons_append]
    · rw [List.find?_cons_of_neg (p := fun x : DatasetConfig × List PreparedRow => containsKey x.2 k) _ hc] at h
      obtain ⟨mp, rest, hl⟩ := ih k d rows (by simpa [firstContaining] using h)
      refine ⟨mp, rest, ?_⟩
      simp only [load_comparison_lookup, List.flatMap_cons, containsKey_filter_nil hc,
        List.map_nil, List.nil_append]
      simpa [load_comparison_lookup] using hl

lemma filter_length_le_lookup :
    ∀ (datasets : List (DatasetConfig × List PreparedRow)) (k : String × String × String),
      (datasets.filter (fun p => containsKey p.2 k)).length
        ≤ (load_comparison_lookup datasets k).length := by
  intro datasets k
  induction datasets with
  | nil => simp [load_comparison_lookup]
  | cons q ps ih =>
    simp only [load_comparison_lookup, List.flatMap_cons, List.length_append,
      List.length_map]
    by_cases hc : containsKey q.2 k
    · rw [List.filter_cons_of_pos (p := fun x : DatasetConfig × List PreparedRow => containsKey x.2 k) hc]
      have h1 : 1 ≤ (q.2.filter (keyPred k)).length := by
        cases hf : q.2.filter (keyPred k) with
        | nil => exact absurd hf (containsKey_filter_ne_nil hc)
        | cons a t => simp
      have h2 := ih
      simp only [load_comparison_lookup] at h2
      simp only [List.length_cons]
      omega
    · rw [List.filter_cons_of_neg (p := fun x : DatasetConfig × List PreparedRow => containsKey x.2 k) hc]
      have h2 := ih
      simp only [load_comparison_lookup] at h2
      omega

lemma findModel_of_mem_nodup :
    ∀ (datasets : List (DatasetConfig × List PreparedRow)),
      (datasets.map (fun p => p.1.key)).Nodup →
      ∀ (d : DatasetConfig) (rows : List PreparedRow), (d, rows) ∈ datasets →
      findModel datasets d.key = some d.model := by
  intro datasets
  induction datasets with
  | nil => intro _ d rows hmem; simp at hmem
  | cons p ps ih =>
    intro hnodup d rows hmem
    simp only [List.map_cons, List.nodup_cons] at hnodup
    obtain ⟨hnotin, hnd⟩ := hnodup
    rcases List.mem_cons.mp hmem with rfl | hmem2
    · simp [findModel]
    · by_cases hpk : p.1.key = d.key
      · exact absurd (hpk ▸ List.mem_map_of_mem (fun q => q.1.key) hmem2) hnotin
      · simp only [findModel]
        rw [List.find?_cons_of_neg _ (by simpa using hpk)]
        have := ih hnd d rows hmem2
        simpa [findModel] using this

/-- C6: when a key occurs in the comparison rows of at least two bound
datasets (with distinct dataset identifiers, as declared), a matching
response is recorded as an ambiguous match, and its tally goes to the
model bound to the first dataset in declaration order that contains the
key, every other model's tally being untouched - a deterministic
function of the declared order. -/
theorem c6_ambiguous_first_binding (datasets : List (DatasetConfig × List PreparedRow))
    (st : AnalyzeState) (r : ResponseRow) (k : String × String × String)
    (hk : respKey r = k)
    (hnodup : (datasets.map (fun p => p.1.key)).Nodup)
    (hmulti : 2 ≤ (datasets.filter (fun p => containsKey p.2 k)).length) :
    (processResponse datasets st r).ambiguous
      = st.ambiguous ++ [(k, load_comparison_lookup datasets k)]
    ∧ ∃ d rows, firstContaining datasets k = some (d, rows)
        ∧ ((processResponse datasets st r).stats d.model).rows
            = (st.stats d.model).rows + 1
        ∧ ∀ m, m ≠ d.model → (processResponse datasets st r).stats m = st.stats m := by
  have hfc : ∃ d rows, firstContaining datasets k = some (d, rows) := by
    cases hf : firstContaining datasets k with
    | none =>
      exfalso
      have hall := List.find?_eq_none.mp hf
      have : datasets.filter (fun p => containsKey p.2 k) = [] := by
        rw [List.filter_eq_nil_iff]
        exact hall
      rw [this] at hmulti
      simp at hmulti
    | some pr =>
      obtain ⟨d0, rows0⟩ := pr
      exact ⟨d0, rows0, rfl⟩
  obtain ⟨d, rows, hfst⟩ := hfc
  obtain ⟨mp, rest, hlk⟩ := lookup_head_of_firstContaining datasets k d rows hfst
  have hrest : rest ≠ [] := by
    intro hre
    have hlen := filter_length_le_lookup datasets k
    rw [hlk, hre] at hlen
    simp at hlen
    omega
  have hmem : (d, rows) ∈ datasets := List.mem_of_find?_eq_some hfst
  have hmodel : findModel datasets d.key = some d.model :=
    findModel_of_mem_nodup datasets hnodup d rows hmem
  have hlk2 : load_comparison_lookup datasets (respKey r) = (d.key, mp) :: rest := by
    rw [hk, hlk]
  refine ⟨?_, d, rows, hfst, ?_, ?_⟩
  · rw [processResponse_ambiguous_multi datasets st r d.key mp rest hlk2 hrest, hk, hlk]
  · rw [processResponse_stats_matched datasets st r d.key mp d.model rest hlk2 hmodel]
    simp only [bumpStats, if_pos rfl, if_true, eq_self_iff_true]
    rw [classify_rows]
  · intro m hm
    rw [processResponse_stats_matched datasets st r d.key mp d.model rest hlk2 hmodel]
    simp only [bumpStats, if_neg hm]

theorem c6_ambiguous_first_binding_witness :
    respKey (ResponseRow.mk "c" "x" "y" "A") = ("c", "x", "y")
    ∧ (([(DatasetConfig.mk "d1" "m1", [PreparedRow.mk "" "c" "x" "y" "A"]),
         (DatasetConfig.mk "d2" "m2", [PreparedRow.mk "" "c" "x" "y" "A"])].map
          (fun p => p.1.key)).Nodup
    ∧ 2 ≤ ([(DatasetConfig.mk "d1" "m1", [PreparedRow.mk "" "c" "x" "y" "A"]),
            (DatasetConfig.mk "d2" "m2", [PreparedRow.mk "" "c" "x" "y" "A"])].filter
             (fun p => containsKey p.2 ("c", "x", "y"))).length
    ∧ ((processResponse
          [(DatasetConfig.mk "d1" "m1", [PreparedRow.mk "" "c" "x" "y" "A"]),
           (DatasetConfig.mk "d2" "m2", [PreparedRow.mk "" "c" "x" "y" "A"])]
          (AnalyzeState.mk (fun _ => initTally) [] [])
          (ResponseRow.mk "c" "x" "y" "A")).ambiguous
        = (AnalyzeState.mk (fun _ => initTally) [] []).ambiguous
          ++ [(("c", "x", "y"),
               load_comparison_lookup
                 [(DatasetConfig.mk "d1" "m1", [PreparedRow.mk "" "c" "x" "y" "A"]),
                  (DatasetConfig.mk "d2" "m2", [PreparedRow.mk "" "c" "x" "y" "A"])]
                 ("c", "x", "y"))]
      ∧ ∃ d rows,
          firstContaining
            [(DatasetConfig.mk "d1" "m1", [PreparedRow.mk "" "c" "x" "y" "A"]),
             (DatasetConfig.mk "d2" "m2", [PreparedRow.mk "" "c" "x" "y" "A"])]
            ("c", "x", "y") = some (d, rows)
          ∧ ((processResponse
                [(DatasetConfig.mk "d1" "m1", [PreparedRow.mk "" "c" "x" "y" "A"]),
                 (DatasetConfig.mk "d2" "m2", [PreparedRow.mk "" "c" "x" "y" "A"])]
                (AnalyzeState.mk (fun _ => initTally) [] [])
                (ResponseRow.mk "c" "x" "y" "A")).stats d.model).rows
              = (((AnalyzeState.mk (fun _ => initTally) [] []).stats d.model)).rows + 1
          ∧ ∀ m, m ≠ d.model →
              (processResponse
                [(DatasetConfig.mk "d1" "m1", [PreparedRow.mk "" "c" "x" "y" "A"]),
                 (DatasetConfig.mk "d2" "m2", [PreparedRow.mk "" "c" "x" "y" "A"])]
                (AnalyzeState.mk (fun _ => initTally) [] [])
                (ResponseRow.mk "c" "x" "y" "A")).stats m
                = (AnalyzeState.mk (fun _ => initTally) [] []).stats m)) :=
  ⟨by decide, by decide, by decide,
   c6_ambiguous_first_binding
     [(DatasetConfig.mk "d1" "m1", [PreparedRow.mk "" "c" "x" "y" "A"]),
      (DatasetConfig.mk "d2" "m2", [PreparedRow.mk "" "c" "x" "y" "A"])]
     (AnalyzeState.mk (fun _ => initTally) [] [])
     (ResponseRow.mk "c" "x" "y" "A") ("c", "x", "y")
     (by decide) (by decide) (by decide)⟩
